import Mathlib

/-!
Shallow embedding of the structured-extraction core of `app.py`
(docspreccessor): the JSON value model produced by `json.loads`, the
schema builder (`build_json_schema`), the save-time field validation
(`validate_schema_fields`), the response validator
(`validate_against_schema`), the prompt compiler
(`build_extraction_prompt`), the file-type dispatcher
(`extract_text_from_file`) and the retry orchestrator
(`extract_structured_data`).

External collaborators (the Ollama model, `json.loads` as a parser, and
the per-format file readers) are parameters of the embedded functions:
the model is a sequence of raw responses indexed by attempt number, and
decoding is a function from raw text to either a parse error or a value.
-/

set_option autoImplicit false

namespace DocsPre

/-- Python's `str.strip()` whitespace class, on the ASCII range. -/
def py_is_space (c : Char) : Bool :=
  c == ' ' || c == '\t' || c == '\n' || c == '\r' || c == '\x0b' || c == '\x0c'

/-- Python's `str.strip()` on the underlying character list: drop leading
and trailing whitespace. -/
def py_strip_chars (l : List Char) : List Char :=
  ((l.dropWhile py_is_space).reverse.dropWhile py_is_space).reverse

/-- Python's `str.strip()`. -/
def py_strip (s : String) : String := ⟨py_strip_chars s.data⟩

/-- Python's `str.lower()` (ASCII range, which covers every suffix the
dispatcher compares against). -/
def py_lower (s : String) : String := ⟨s.data.map Char.toLower⟩

/-- Python's `str.endswith(t)`. -/
def py_endswith (s t : String) : Bool := t.data.isSuffixOf s.data

/-- Values produced by Python's `json.loads`: `None`, `bool`, `int`,
`float`, `str`, `list`, `dict`.  Floats are carried as rationals; the
validator only ever inspects the constructor tag of a float. -/
inductive JsonVal where
  | null
  | bool (b : Bool)
  | int (n : Int)
  | float (q : Rat)
  | str (s : String)
  | arr (items : List JsonVal)
  | obj (fields : List (String × JsonVal))

/-- First-match lookup in an object's key/value pairs; models Python
`key in item` / `item[key]` on a dict (whose keys are unique). -/
def lookup_value (fields : List (String × JsonVal)) (key : String) : Option JsonVal :=
  match fields with
  | [] => none
  | (k, v) :: rest => if k = key then some v else lookup_value rest key

/-- `isinstance(value, str)`. -/
def is_str : JsonVal → Bool
  | .str _ => true
  | _ => false

/-- `isinstance(value, (int, float))`.  In Python `bool` is a subclass of
`int`, so boolean values satisfy this check as well. -/
def is_number : JsonVal → Bool
  | .int _ => true
  | .float _ => true
  | .bool _ => true
  | _ => false

/-- `isinstance(value, bool)`. -/
def is_bool : JsonVal → Bool
  | .bool _ => true
  | _ => false

/-- A schema-builder field row: `{"name": ..., "type": ..., "required": ...,
"description": ...}` from `st.session_state.schema_fields`. -/
structure FieldDef where
  name : String
  type : String
  required : Bool
  description : String
deriving DecidableEq

/-- The compiled schema.  `app.py` wraps this as
`{"type": "array", "items": {"type": "object", "properties": ..., "required": ...}}`;
the wrapper is fixed, so only the `items` content is carried.
`properties` maps a field name to the declared type string. -/
structure JsonSchema where
  properties : List (String × String)
  required : List String
deriving DecidableEq

/-- `properties[name] = {"type": field_type}` on a Python dict: updating an
existing key keeps its position, a new key is appended (insertion order). -/
def insert_property (props : List (String × String)) (name ftype : String) :
    List (String × String) :=
  if props.any (fun p => p.1 = name) then
    props.map (fun p => if p.1 = name then (name, ftype) else p)
  else
    props ++ [(name, ftype)]

/-- The loop body of `build_json_schema`, with the `properties` and
`required` accumulators explicit. -/
def build_fields : List FieldDef → List (String × String) → List String → JsonSchema
  | [], props, required => ⟨props, required⟩
  | f :: rest, props, required =>
    let name := py_strip f.name
    if name = "" then
      build_fields rest props required
    else
      build_fields rest (insert_property props name f.type)
        (if f.required then required ++ [name] else required)

/-- `build_json_schema` (app.py lines 44-70). -/
def build_json_schema (fields : List FieldDef) : JsonSchema :=
  build_fields fields [] []

/-- The list comprehension
`[f.get("name", "").strip() for f in fields if f.get("name", "").strip()]`
from `validate_schema_fields`. -/
def valid_names (fields : List FieldDef) : List String :=
  fields.filterMap (fun f => if py_strip f.name = "" then none else some (py_strip f.name))

/-- The `EmptyFieldSet` message of `validate_schema_fields`. -/
def empty_field_set_msg : String := "Добавьте хотя бы одно поле с непустым именем."

/-- The `DuplicateFieldName` message of `validate_schema_fields`. -/
def duplicate_field_name_msg : String := "Имена полей должны быть уникальными."

/-- `validate_schema_fields` (app.py lines 73-82).  `len(set(names))` is the
number of distinct names, i.e. `names.dedup.length`. -/
def validate_schema_fields (fields : List FieldDef) : Bool × Option String :=
  let names := valid_names fields
  if names = [] then
    (false, some empty_field_set_msg)
  else if names.dedup.length ≠ names.length then
    (false, some duplicate_field_name_msg)
  else
    (true, none)

/-- The failure cases of `validate_against_schema`, one constructor per
formatted error message, carrying exactly the data interpolated into the
message text. -/
inductive ValidationError where
  | notAnArray
  | elementNotAnObject (idx : Nat)
  | missingRequiredField (idx : Nat) (fieldName : String)
  | typeMismatch (idx : Nat) (key : String) (expected : String)
deriving DecidableEq

/-- `req not in item or item[req] in (None, "")`: the required-field
presence check of `validate_against_schema` (app.py line 270). -/
def required_value_missing (fields : List (String × JsonVal)) (req : String) : Bool :=
  match lookup_value fields req with
  | none => true
  | some .null => true
  | some (.str s) => s = ""
  | some _ => false

/-- The first name of `required` whose value is missing from the element,
in the order the source loop visits them. -/
def first_missing_required (required : List String)
    (fields : List (String × JsonVal)) : Option String :=
  required.find? (fun r => required_value_missing fields r)

/-- The `for req in required_fields` loop of `validate_against_schema`. -/
def check_required (required : List String) (idx : Nat)
    (fields : List (String × JsonVal)) : Option ValidationError :=
  match required with
  | [] => none
  | r :: rest =>
    if required_value_missing fields r then some (.missingRequiredField idx r)
    else check_required rest idx fields

/-- The `if expected_type == ... and not isinstance(...)` chain of
`validate_against_schema` (app.py lines 280-285), as the predicate
"this value matches the declared type".  An unknown declared type
matches everything, exactly as the source chain falls through. -/
def type_matches (expected : String) (v : JsonVal) : Bool :=
  if expected = "string" then is_str v
  else if expected = "number" then is_number v
  else if expected = "boolean" then is_bool v
  else true

/-- First-match lookup in `properties` (`key not in properties` /
`properties[key]` on the schema dict). -/
def lookup_prop (props : List (String × String)) (key : String) : Option String :=
  match props with
  | [] => none
  | (k, t) :: rest => if k = key then some t else lookup_prop rest key

/-- The `for key, value in item.items()` type-check loop of
`validate_against_schema` (app.py lines 274-285). -/
def check_types (props : List (String × String)) (idx : Nat) :
    List (String × JsonVal) → Option ValidationError
  | [] => none
  | (key, value) :: rest =>
    match lookup_prop props key with
    | none => check_types props idx rest
    | some expected =>
      if type_matches expected value then check_types props idx rest
      else some (.typeMismatch idx key expected)

/-- The body of the `for idx, item in enumerate(data)` loop for one
element: object check, then required fields, then type checks. -/
def check_item (schema : JsonSchema) (idx : Nat) : JsonVal → Option ValidationError
  | .obj fields =>
    match check_required schema.required idx fields with
    | some e => some e
    | none => check_types schema.properties idx fields
  | _ => some (.elementNotAnObject idx)

/-- The `for idx, item in enumerate(data)` loop, returning the first
failure. -/
def check_items (schema : JsonSchema) (idx : Nat) : List JsonVal → Option ValidationError
  | [] => none
  | item :: rest =>
    match check_item schema idx item with
    | some e => some e
    | none => check_items schema (idx + 1) rest

/-- `validate_against_schema` (app.py lines 249-287).  `none` is the
success result `(True, None)`; `some e` is `(False, message-of e)`. -/
def validate_against_schema (data : JsonVal) (schema : JsonSchema) :
    Option ValidationError :=
  match data with
  | .arr items => check_items schema 0 items
  | _ => some .notAnArray

/-- One escaped character of `json.dumps(..., ensure_ascii=False)` string
output, on the character classes that occur here. -/
def json_escape_char (c : Char) : String :=
  if c = '"' then "\\\""
  else if c = '\\' then "\\\\"
  else if c = '\n' then "\\n"
  else if c = '\r' then "\\r"
  else if c = '\t' then "\\t"
  else String.singleton c

/-- String-body escaping of `json.dumps(..., ensure_ascii=False)`. -/
def json_escape (s : String) : String :=
  String.join (s.toList.map json_escape_char)

/-- A JSON string literal. -/
def json_quote (s : String) : String := "\"" ++ json_escape s ++ "\""

/-- `json.dumps(schema, ensure_ascii=False, indent=2)` on the fixed shape
`{"type": "array", "items": {"type": "object", "properties": ..., "required": ...}}`
produced by `build_json_schema`. -/
def schema_to_json_string (schema : JsonSchema) : String :=
  let propsStr :=
    if schema.properties.isEmpty then "\x7b\x7d"
    else
      "\x7b\n" ++
        String.intercalate ",\n"
          (schema.properties.map (fun p =>
            "      " ++ json_quote p.1 ++ ": \x7b\n        \"type\": " ++
              json_quote p.2 ++ "\n      \x7d")) ++
        "\n    \x7d"
  let reqStr :=
    if schema.required.isEmpty then "[]"
    else
      "[\n" ++
        String.intercalate ",\n" (schema.required.map (fun r => "      " ++ json_quote r)) ++
        "\n    ]"
  "\x7b\n  \"type\": \"array\",\n  \"items\": \x7b\n    \"type\": \"object\",\n    \"properties\": " ++
    propsStr ++ ",\n    \"required\": " ++ reqStr ++ "\n  \x7d\n\x7d"

/-- The `hints_lines` loop of `build_extraction_prompt` (app.py lines
307-315): one `- name (type): description` line per field whose trimmed
name and trimmed description are both non-empty. -/
def hints_lines : List FieldDef → List String
  | [] => []
  | f :: rest =>
    let name := py_strip f.name
    let desc := py_strip f.description
    if name = "" ∨ desc = "" then hints_lines rest
    else ("- " ++ name ++ " (" ++ f.type ++ "): " ++ desc) :: hints_lines rest

/-- The `hints_block` string of `build_extraction_prompt` (app.py lines
317-319). -/
def hints_block (fields_meta : List FieldDef) : String :=
  let ls := hints_lines fields_meta
  if ls = [] then ""
  else "\n\nОПИСАНИЯ ПОЛЕЙ (как понимать/что извлекать):\n" ++ String.intercalate "\n" ls

/-- The fixed text of the extraction prompt before the serialized schema. -/
def prompt_header : String :=
  "Ты – система извлечения структурированных данных из документа.\n\nТВОЯ ЗАДАЧА:\n1. Проанализировать текст документа.\n2. Извлечь данные строго в формате JSON, который соответствует следующей JSON-схеме.\n3. Вернуть ТОЛЬКО валидный JSON без каких-либо пояснений, комментариев или текста до/после.\n\nJSON-схема (формат результата):\n\n"

/-- The fixed requirements text of the extraction prompt, between the
hints block and the document text. -/
def prompt_requirements : String :=
  "\n\nТРЕБОВАНИЯ:\n- Верхний уровень результата: всегда JSON-массив (`type: \"array\"`).\n- Каждый элемент массива – объект (`type: \"object\"`).\n- Поля должны соответствовать `properties` и `required` из схемы.\n- Если данные отсутствуют, верни пустой массив: [].\n- НЕ ДОБАВЛЯЙ полей, которых нет в схеме.\n- НЕ ПИШИ НИКАКОГО ТЕКСТА, КРОМЕ JSON.\n\nТЕКСТ ДОКУМЕНТА ДЛЯ АНАЛИЗА:\n\n"

/-- `build_extraction_prompt` (app.py lines 294-347): the f-string
template filled with the serialized schema, the hints block and the
document text, then `.strip()`ped. -/
def build_extraction_prompt (schema : JsonSchema) (text : String)
    (fields_meta : List FieldDef) : String :=
  py_strip (prompt_header ++ schema_to_json_string schema ++ "\n" ++ hints_block fields_meta ++
    prompt_requirements ++ text)

/-- The reinforcement text appended on retries (app.py lines 385-391).
The source applies `.strip()` to the appended triple-quoted literal, so
its leading blank lines are removed before concatenation. -/
def retry_suffix : String :=
  "ВАЖНО:\nПредыдущий ответ был невалидным JSON.\nСейчас верни ТОЛЬКО валидный JSON, строго соответствующий схеме.\nНе добавляй никаких комментариев или текста вне JSON."

/-- The document kinds `extract_text_from_file` dispatches to; each kind
names an external reader collaborator. -/
inductive ExtractedKind where
  | pdf
  | docx
  | txt
  | csv
  | excel
deriving DecidableEq

/-- The message of the `ValueError` raised for an unsupported suffix. -/
def unsupported_format_msg : String := "Неподдерживаемый формат файла."

/-- `extract_text_from_file` (app.py lines 194-209), with the per-format
readers as an external collaborator `reader`.  Dispatches on the
lowercased filename suffix; note the `(".xls", ".xlsx")` tuple in the
tabular branch. -/
def extract_text_from_file (reader : ExtractedKind → String) (filename : String) :
    Except String String :=
  let f := py_lower filename
  if py_endswith f ".pdf" then .ok (reader .pdf)
  else if py_endswith f ".docx" then .ok (reader .docx)
  else if py_endswith f ".txt" then .ok (reader .txt)
  else if py_endswith f ".csv" then .ok (reader .csv)
  else if py_endswith f ".xls" || py_endswith f ".xlsx" then .ok (reader .excel)
  else .error unsupported_format_msg

/-- The `last_error` channel of `extract_structured_data`: either the
formatted `JSONDecodeError` message or the validator's failure. -/
inductive LastError where
  | jsonDecode (msg : String)
  | validation (e : ValidationError)
deriving DecidableEq

/-- The tuple returned by `extract_structured_data`, instrumented with
the number of model invocations and the exact prompts sent, in order. -/
structure ExtractionOutcome where
  parsed : Option JsonVal
  raw : String
  err : Option LastError
  calls : Nat
  prompts : List String
deriving Inhabited

/-- The `f"Ошибка JSONDecode: {e}"` message. -/
def json_decode_msg (e : String) : String := "Ошибка JSONDecode: " ++ e

/-- The `for attempt in range(max_retries + 1)` loop of
`extract_structured_data`.  `decode` is `json.loads` (an external
collaborator), `oracle k` is the model's raw response to the `k`-th
invocation; one invocation happens per attempt, so attempt numbers index
the oracle.  `lastRaw`/`lastErr` carry `last_raw_output`/`last_error`. -/
def extract_loop (decode : String → Except String JsonVal) (oracle : Nat → String)
    (schema : JsonSchema) (basePrompt : String) :
    Nat → Nat → String → Option LastError → ExtractionOutcome
  | _, 0, lastRaw, lastErr =>
    { parsed := none, raw := lastRaw, err := lastErr, calls := 0, prompts := [] }
  | attempt, remaining + 1, _, _ =>
    let prompt := if attempt = 0 then basePrompt else basePrompt ++ retry_suffix
    let raw := oracle attempt
    match decode raw with
    | .error e =>
      let rest := extract_loop decode oracle schema basePrompt (attempt + 1) remaining raw
        (some (.jsonDecode (json_decode_msg e)))
      { parsed := rest.parsed, raw := rest.raw, err := rest.err,
        calls := rest.calls + 1, prompts := prompt :: rest.prompts }
    | .ok parsedVal =>
      match validate_against_schema parsedVal schema with
      | none =>
        { parsed := some parsedVal, raw := raw, err := none, calls := 1,
          prompts := [prompt] }
      | some verr =>
        let rest := extract_loop decode oracle schema basePrompt (attempt + 1) remaining raw
          (some (.validation verr))
        { parsed := rest.parsed, raw := rest.raw, err := rest.err,
          calls := rest.calls + 1, prompts := prompt :: rest.prompts }

/-- `extract_structured_data` (app.py lines 365-409): builds the base
prompt once, then runs up to `max_retries + 1` attempts starting from
`last_raw_output = ""` and `last_error = None`. -/
def extract_structured_data (schema : JsonSchema) (text : String)
    (fields_meta : List FieldDef) (max_retries : Nat)
    (decode : String → Except String JsonVal) (oracle : Nat → String) :
    ExtractionOutcome :=
  extract_loop decode oracle schema (build_extraction_prompt schema text fields_meta)
    0 (max_retries + 1) "" none

/-- Attempt `k` fails: its raw response either fails to decode, or
decodes to a value the validator rejects. -/
def attempt_fails (decode : String → Except String JsonVal) (oracle : Nat → String)
    (schema : JsonSchema) (k : Nat) : Prop :=
  match decode (oracle k) with
  | .error _ => True
  | .ok v => validate_against_schema v schema ≠ none

/-- The `last_error` value recorded by a failed attempt `k`: the formatted
decode message if the raw text does not parse, otherwise the validator's
failure. -/
def fail_err (decode : String → Except String JsonVal) (oracle : Nat → String)
    (schema : JsonSchema) (k : Nat) : Option LastError :=
  match decode (oracle k) with
  | .error e => some (.jsonDecode (json_decode_msg e))
  | .ok v => (validate_against_schema v schema).map (fun e => .validation e)

/-- A concrete decode collaborator that always fails to parse. -/
def demo_decode_fail : String → Except String JsonVal := fun _ => Except.error "boom"

/-- A concrete decode collaborator that always parses to the empty array. -/
def demo_decode_ok : String → Except String JsonVal := fun _ => Except.ok (JsonVal.arr [])

/-- A concrete model collaborator returning the same raw text on every call. -/
def demo_oracle : Nat → String := fun _ => "[]"

/-- A concrete reader collaborator returning empty text for every kind. -/
def demo_reader : ExtractedKind → String := fun _ => ""

/-! ### Lemmas about the schema builder and save-time validation -/

theorem valid_names_eq_nil_iff (fields : List FieldDef) :
    valid_names fields = [] ↔ ∀ f ∈ fields, py_strip f.name = "" := by
  simp only [valid_names, List.filterMap_eq_nil_iff]
  constructor
  · intro h f hf
    by_contra hne
    simpa [hne] using h f hf
  · intro h f hf
    simp [h f hf]

theorem dedup_length_eq (names : List String) :
    names.dedup.length = names.length ↔ names.Nodup := by
  constructor
  · intro h
    exact List.dedup_eq_self.mp ((names.dedup_sublist).eq_of_length h)
  · intro h
    rw [List.dedup_eq_self.mpr h]

theorem mem_insert_property {props : List (String × String)} {n t : String}
    {p : String × String} (h : p ∈ insert_property props n t) :
    p ∈ props ∨ p = (n, t) := by
  unfold insert_property at h
  split at h
  · rcases List.mem_map.mp h with ⟨q, hq, hqe⟩
    by_cases hk : q.1 = n
    · right
      simpa [hk] using hqe.symm
    · left
      have hqp : q = p := by simpa [hk] using hqe
      exact hqp ▸ hq
  · rcases List.mem_append.mp h with h | h
    · exact Or.inl h
    · right
      simpa using h

theorem key_mem_insert_property {props : List (String × String)} {n t k : String}
    (h : ∃ q ∈ props, q.1 = k) :
    ∃ q ∈ insert_property props n t, q.1 = k := by
  rcases h with ⟨q, hq, hk⟩
  unfold insert_property
  split
  · by_cases hqn : q.1 = n
    · exact ⟨(n, t), List.mem_map.mpr ⟨q, hq, by simp [hqn]⟩, by rw [← hk, hqn]⟩
    · exact ⟨q, List.mem_map.mpr ⟨q, hq, by simp [hqn]⟩, hk⟩
  · exact ⟨q, List.mem_append_left _ hq, hk⟩

theorem insert_property_key_mem (props : List (String × String)) (n t : String) :
    ∃ q ∈ insert_property props n t, q.1 = n := by
  unfold insert_property
  split
  · rename_i hany
    rcases List.any_eq_true.mp hany with ⟨q, hq, hqn⟩
    exact ⟨(n, t), List.mem_map.mpr ⟨q, hq, by simp [of_decide_eq_true hqn]⟩, rfl⟩
  · exact ⟨(n, t), List.mem_append_right _ (by simp), rfl⟩

theorem build_fields_props_mem :
    ∀ (fields : List FieldDef) (props : List (String × String)) (required : List String)
      (p : String × String), p ∈ (build_fields fields props required).properties →
      p ∈ props ∨ ∃ f ∈ fields, p.1 = py_strip f.name ∧ py_strip f.name ≠ "" := by
  intro fields
  induction fields with
  | nil =>
    intro props required p hp
    exact Or.inl hp
  | cons f rest ih =>
    intro props required p hp
    by_cases hname : py_strip f.name = ""
    · rw [build_fields, if_pos hname] at hp
      rcases ih _ _ _ hp with h | ⟨g, hg, hpe⟩
      · exact Or.inl h
      · exact Or.inr ⟨g, List.mem_cons_of_mem _ hg, hpe⟩
    · rw [build_fields, if_neg hname] at hp
      rcases ih _ _ _ hp with h | ⟨g, hg, hpe⟩
      · rcases mem_insert_property h with h | h
        · exact Or.inl h
        · exact Or.inr ⟨f, List.mem_cons_self _ _, by simp [h], by simp [h, hname]⟩
      · exact Or.inr ⟨g, List.mem_cons_of_mem _ hg, hpe⟩

theorem build_fields_keys_mono :
    ∀ (fields : List FieldDef) (props : List (String × String)) (required : List String)
      (k : String), (∃ q ∈ props, q.1 = k) →
      ∃ q ∈ (build_fields fields props required).properties, q.1 = k := by
  intro fields
  induction fields with
  | nil =>
    intro props required k h
    exact h
  | cons f rest ih =>
    intro props required k h
    by_cases hname : py_strip f.name = ""
    · rw [build_fields, if_pos hname]
      exact ih _ _ _ h
    · rw [build_fields, if_neg hname]
      exact ih _ _ _ (key_mem_insert_property h)

theorem build_fields_required_in_props :
    ∀ (fields : List FieldDef) (props : List (String × String)) (required : List String),
      (∀ r ∈ required, ∃ q ∈ props, q.1 = r) →
      ∀ r ∈ (build_fields fields props required).required,
        ∃ q ∈ (build_fields fields props required).properties, q.1 = r := by
  intro fields
  induction fields with
  | nil =>
    intro props required h r hr
    exact h r hr
  | cons f rest ih =>
    intro props required h r hr
    by_cases hname : py_strip f.name = ""
    · rw [build_fields, if_pos hname] at hr ⊢
      exact ih _ _ h r hr
    · rw [build_fields, if_neg hname] at hr ⊢
      refine ih _ _ ?_ r hr
      intro r0 hr0
      by_cases hreq : f.required
      · rw [if_pos hreq] at hr0
        rcases List.mem_append.mp hr0 with h0 | h0
        · exact key_mem_insert_property (h r0 h0)
        · have : r0 = py_strip f.name := by simpa using h0
          rw [this]
          exact insert_property_key_mem _ _ _
      · rw [if_neg hreq] at hr0
        exact key_mem_insert_property (h r0 hr0)

theorem build_fields_desc_invariant :
    ∀ (fields : List FieldDef) (props : List (String × String)) (required : List String)
      (d : String),
      build_fields (fields.map (fun f => { f with description := d })) props required =
        build_fields fields props required := by
  intro fields
  induction fields with
  | nil =>
    intro props required d
    rfl
  | cons f rest ih =>
    intro props required d
    by_cases h : py_strip f.name = ""
    · simp only [List.map_cons, build_fields]
      rw [if_pos h, if_pos h]
      exact ih _ _ d
    · simp only [List.map_cons, build_fields]
      rw [if_neg h, if_neg h]
      exact ih _ _ d

/-! ### Claim theorems: field-set validation and schema compilation -/

/-- C5.  `validate_schema_fields` succeeds exactly when some field has a
non-empty trimmed name and the non-empty trimmed names are pairwise
distinct; with no valid name it fails with the `EmptyFieldSet` message,
and with a repeated trimmed name it fails with the `DuplicateFieldName`
message. -/
theorem c5_validate_schema_fields :
    (∀ fields : List FieldDef,
      validate_schema_fields fields = (true, none) ↔
        ((∃ f ∈ fields, py_strip f.name ≠ "") ∧ (valid_names fields).Nodup))
    ∧ (∀ fields : List FieldDef, valid_names fields = [] →
        validate_schema_fields fields = (false, some empty_field_set_msg))
    ∧ (∀ fields : List FieldDef, ¬ (valid_names fields).Nodup →
        validate_schema_fields fields = (false, some duplicate_field_name_msg)) := by
  refine ⟨?_, ?_, ?_⟩
  · intro fields
    simp only [validate_schema_fields]
    by_cases h1 : valid_names fields = []
    · rw [if_pos h1]
      constructor
      · intro h
        simp at h
      · rintro ⟨⟨f, hf, hne⟩, -⟩
        exact absurd ((valid_names_eq_nil_iff fields).mp h1 f hf) hne
    · rw [if_neg h1]
      by_cases h2 : (valid_names fields).dedup.length = (valid_names fields).length
      · rw [if_neg (not_not_intro h2)]
        constructor
        · intro _
          have h3 : ¬ ∀ f ∈ fields, py_strip f.name = "" :=
            fun hall => h1 ((valid_names_eq_nil_iff fields).mpr hall)
          push_neg at h3
          exact ⟨h3, (dedup_length_eq _).mp h2⟩
        · intro _
          rfl
      · rw [if_pos h2]
        constructor
        · intro h
          simp at h
        · rintro ⟨-, hnodup⟩
          exact absurd ((dedup_length_eq _).mpr hnodup) h2
  · intro fields h
    simp only [validate_schema_fields]
    rw [if_pos h]
  · intro fields h
    have hne : valid_names fields ≠ [] := by
      intro hnil
      rw [hnil] at h
      exact h List.nodup_nil
    have hlen : (valid_names fields).dedup.length ≠ (valid_names fields).length :=
      fun he => h ((dedup_length_eq _).mp he)
    simp only [validate_schema_fields]
    rw [if_neg hne, if_pos hlen]

/-- Witness for C5: the empty field list fails with the `EmptyFieldSet`
message, and two fields whose names trim to the same string fail with
the `DuplicateFieldName` message. -/
theorem c5_witness :
    validate_schema_fields ([] : List FieldDef) = (false, some empty_field_set_msg)
    ∧ validate_schema_fields [⟨"a", "string", false, ""⟩, ⟨" a ", "number", false, ""⟩] =
        (false, some duplicate_field_name_msg) :=
  ⟨c5_validate_schema_fields.2.1 [] rfl,
   c5_validate_schema_fields.2.2 [⟨"a", "string", false, ""⟩, ⟨" a ", "number", false, ""⟩]
     (by decide)⟩

/-- C6.  The compiled schema's invariants: every `properties` key is the
non-empty trimmed name of some input field (so no empty-string key and
whitespace-only names are dropped), every `required` name is a
`properties` key, descriptions never influence the compiled schema, and
a field whose name trims to empty contributes nothing. -/
theorem c6_build_json_schema_invariants :
    (∀ (fields : List FieldDef) (p : String × String),
      p ∈ (build_json_schema fields).properties →
        p.1 ≠ "" ∧ ∃ f ∈ fields, p.1 = py_strip f.name ∧ py_strip f.name ≠ "")
    ∧ (∀ (fields : List FieldDef) (r : String),
        r ∈ (build_json_schema fields).required →
          ∃ q ∈ (build_json_schema fields).properties, q.1 = r)
    ∧ (∀ (fields : List FieldDef) (d : String),
        build_json_schema (fields.map (fun f => { f with description := d })) =
          build_json_schema fields)
    ∧ (∀ (f : FieldDef) (rest : List FieldDef), py_strip f.name = "" →
        build_json_schema (f :: rest) = build_json_schema rest) := by
  refine ⟨?_, ?_, ?_, ?_⟩
  · intro fields p hp
    rcases build_fields_props_mem fields [] [] p hp with h | ⟨f, hf, hpe, hne⟩
    · simp at h
    · exact ⟨hpe ▸ hne, f, hf, hpe, hne⟩
  · intro fields r hr
    refine build_fields_required_in_props fields [] [] ?_ r hr
    intro r0 hr0
    simp at hr0
  · intro fields d
    exact build_fields_desc_invariant fields [] [] d
  · intro f rest h
    simp only [build_json_schema, build_fields]
    rw [if_pos h]

/-- Witness for C6: a concrete field list with a duplicate trimmed name,
a whitespace-only name and a description exercises every conjunct. -/
theorem c6_witness :
    ((("a", "string") : String × String).1 ≠ ""
      ∧ ∃ f ∈ [(⟨" a ", "string", true, "hint"⟩ : FieldDef)],
          (("a", "string") : String × String).1 = py_strip f.name ∧ py_strip f.name ≠ "")
    ∧ build_json_schema [⟨"  ", "number", true, "d"⟩] = build_json_schema [] :=
  ⟨c6_build_json_schema_invariants.1 [⟨" a ", "string", true, "hint"⟩] ("a", "string")
     (by decide),
   c6_build_json_schema_invariants.2.2.2 ⟨"  ", "number", true, "d"⟩ [] (by decide)⟩

/-! ### Lemmas about the response validator -/

theorem check_items_append (schema : JsonSchema) (idx : Nat) (xs ys : List JsonVal) :
    check_items schema idx (xs ++ ys) =
      (match check_items schema idx xs with
        | some e => some e
        | none => check_items schema (idx + xs.length) ys) := by
  induction xs generalizing idx with
  | nil => simp [check_items]
  | cons x rest ih =>
    simp only [List.cons_append, check_items]
    cases check_item schema idx x with
    | some e => rfl
    | none =>
      show check_items schema (idx + 1) (rest ++ ys) =
        (match check_items schema (idx + 1) rest with
          | some e => some e
          | none => check_items schema (idx + (rest.length + 1)) ys)
      rw [ih (idx + 1)]
      have harith : idx + 1 + rest.length = idx + (rest.length + 1) := by omega
      rw [harith]

theorem check_required_eq_find (required : List String) (idx : Nat)
    (fields : List (String × JsonVal)) :
    check_required required idx fields =
      (first_missing_required required fields).map
        (fun r => ValidationError.missingRequiredField idx r) := by
  induction required with
  | nil => rfl
  | cons r rest ih =>
    simp only [check_required, first_missing_required, List.find?]
    by_cases h : required_value_missing fields r
    · simp [h]
    · simp only [h, if_false, Bool.false_eq_true, if_neg]
      rw [ih]
      rfl

theorem check_required_ne_none_of_missing {required : List String}
    {fields : List (String × JsonVal)} {req : String} (hmem : req ∈ required)
    (hmiss : required_value_missing fields req = true) (idx : Nat) :
    check_required required idx fields ≠ none := by
  induction required with
  | nil => cases hmem
  | cons r rest ih =>
    simp only [check_required]
    by_cases h : required_value_missing fields r
    · simp [h]
    · rw [if_neg (by simpa using h)]
      rcases List.mem_cons.mp hmem with he | hm
      · exact absurd (he ▸ hmiss) (by simpa using h)
      · exact ih hm

theorem check_items_ne_none_of_elem_fails {schema : JsonSchema} :
    ∀ (items : List JsonVal) (idx i : Nat) (x : JsonVal), items[i]? = some x →
      check_item schema (idx + i) x ≠ none → check_items schema idx items ≠ none := by
  intro items
  induction items with
  | nil =>
    intro idx i x hx
    simp at hx
  | cons y rest ih =>
    intro idx i x hx hfail
    cases i with
    | zero =>
      have hxy : y = x := by simpa using hx
      simp only [check_items]
      cases hcy : check_item schema idx y with
      | some e => simp
      | none => exact absurd (hxy ▸ hcy) (by simpa using hfail)
    | succ j =>
      have hxr : rest[j]? = some x := by simpa using hx
      simp only [check_items]
      cases hcy : check_item schema idx y with
      | some e => simp
      | none =>
        have harith : idx + 1 + j = idx + (j + 1) := by omega
        exact ih (idx + 1) j x hxr (harith ▸ hfail)

/-! ### Claim theorems: response validation -/

/-- C3.  The validator fails with the `NotAnArray` error whenever the top
level is not an array; if any element (an object) has a required field
that is absent, null or the empty string then validation fails; and when
every earlier element passes all checks, the failure is exactly
`MissingRequiredField` naming that element's index and the first missing
required name. -/
theorem c3_validator_required_failures :
    (∀ (schema : JsonSchema) (data : JsonVal), (∀ xs, data ≠ .arr xs) →
      validate_against_schema data schema = some .notAnArray)
    ∧ (∀ (schema : JsonSchema) (items : List JsonVal) (i : Nat)
        (fields : List (String × JsonVal)) (req : String),
        items[i]? = some (.obj fields) → req ∈ schema.required →
        required_value_missing fields req = true →
        validate_against_schema (.arr items) schema ≠ none)
    ∧ (∀ (schema : JsonSchema) (items : List JsonVal) (i : Nat)
        (fields : List (String × JsonVal)) (req : String),
        validate_against_schema (.arr (items.take i)) schema = none →
        items[i]? = some (.obj fields) →
        first_missing_required schema.required fields = some req →
        validate_against_schema (.arr items) schema =
          some (.missingRequiredField i req)) := by
  refine ⟨?_, ?_, ?_⟩
  · intro schema data hne
    cases data with
    | arr xs => exact absurd rfl (hne xs)
    | null => rfl
    | bool b => rfl
    | int n => rfl
    | float q => rfl
    | str s => rfl
    | obj fields => rfl
  · intro schema items i fields req hx hmem hmiss
    refine check_items_ne_none_of_elem_fails items 0 i (.obj fields) hx ?_
    simp only [check_item]
    cases hcr : check_required schema.required (0 + i) fields with
    | some e => simp
    | none => exact absurd hcr (check_required_ne_none_of_missing hmem hmiss (0 + i))
  · intro schema items i fields req hpre hx hfind
    have hi : i < items.length := by
      rcases List.getElem?_eq_some.mp hx with ⟨h, -⟩
      exact h
    have hxe : items[i] = JsonVal.obj fields := by
      rcases List.getElem?_eq_some.mp hx with ⟨h, he⟩
      exact he
    have hsplit : items = items.take i ++ items.drop i := (List.take_append_drop i items).symm
    have hdrop : items.drop i = JsonVal.obj fields :: items.drop (i + 1) := by
      rw [List.drop_eq_getElem_cons hi, hxe]
    have htake : (items.take i).length = i := by
      rw [List.length_take]
      omega
    simp only [validate_against_schema] at hpre ⊢
    conv_lhs => rw [hsplit]
    rw [check_items_append, hpre, htake, hdrop]
    simp only [Nat.zero_add]
    simp only [check_items, check_item, check_required_eq_find, hfind, Option.map_some']

/-- Witness for C3: a non-array value yields `NotAnArray`; an element
missing its required field makes validation fail, and the failure names
the element index and field. -/
theorem c3_witness :
    validate_against_schema (.str "x") ⟨[], ["a"]⟩ = some .notAnArray
    ∧ validate_against_schema (.arr [.obj [("a", .str "v")], .obj [("a", .null)]])
        ⟨[], ["a"]⟩ ≠ none
    ∧ validate_against_schema (.arr [.obj [("a", .str "v")], .obj [("a", .null)]])
        ⟨[], ["a"]⟩ = some (.missingRequiredField 1 "a") :=
  ⟨c3_validator_required_failures.1 ⟨[], ["a"]⟩ (.str "x") (fun _ h => JsonVal.noConfusion h),
   c3_validator_required_failures.2.1 ⟨[], ["a"]⟩
     [.obj [("a", .str "v")], .obj [("a", .null)]] 1 [("a", .null)] "a" rfl
     (List.mem_singleton.mpr rfl) rfl,
   c3_validator_required_failures.2.2 ⟨[], ["a"]⟩
     [.obj [("a", .str "v")], .obj [("a", .null)]] 1 [("a", .null)] "a" rfl rfl rfl⟩

/-- C4 counterexample: a boolean value stored in a field whose declared
type is `number` passes validation, because Python's
`isinstance(value, (int, float))` accepts `bool` (a subclass of `int`);
the claim's "`number` accepts exactly integer or floating values" is
therefore false on the code. -/
theorem c4_counterexample :
    validate_against_schema (.arr [.obj [("flag", .bool true)]])
        ⟨[("flag", "number")], []⟩ = none
    ∧ type_matches "number" (.bool true) = true :=
  ⟨rfl, rfl⟩

/-- C4 (amended): per-key type checks against `schema.properties` —
`string` accepts exactly text values, `boolean` accepts exactly
true/false values, but `number` accepts integer, floating *and* boolean
values (Python's `bool` is an `int` subclass); keys absent from
`properties` are skipped; a mismatching declared key fails with
`TypeMismatch` naming the index, key and expected type. -/
theorem c4_type_checks :
    (∀ v : JsonVal, type_matches "string" v = true ↔ ∃ s, v = .str s)
    ∧ (∀ v : JsonVal, type_matches "number" v = true ↔
        ((∃ n, v = .int n) ∨ (∃ q, v = .float q) ∨ (∃ b, v = .bool b)))
    ∧ (∀ v : JsonVal, type_matches "boolean" v = true ↔ ∃ b, v = .bool b)
    ∧ (∀ (props : List (String × String)) (idx : Nat) (key : String) (v : JsonVal)
        (rest : List (String × JsonVal)), lookup_prop props key = none →
        check_types props idx ((key, v) :: rest) = check_types props idx rest)
    ∧ (∀ (props : List (String × String)) (idx : Nat) (key expected : String)
        (v : JsonVal) (rest : List (String × JsonVal)),
        lookup_prop props key = some expected → type_matches expected v = false →
        check_types props idx ((key, v) :: rest) =
          some (.typeMismatch idx key expected)) := by
  refine ⟨?_, ?_, ?_, ?_, ?_⟩
  · intro v
    cases v <;> simp [type_matches, is_str]
  · intro v
    cases v <;> simp [type_matches, is_number]
  · intro v
    cases v <;> simp [type_matches, is_bool]
  · intro props idx key v rest h
    simp [check_types, h]
  · intro props idx key expected v rest h hm
    simp [check_types, h, hm]

/-- Witness for C4 (amended): an `int` in a `string` field fails with
`TypeMismatch 0 "a" "string"`, and a key not in `properties` is
skipped. -/
theorem c4_witness :
    check_types [("a", "string")] 0 [("a", .int 3)] = some (.typeMismatch 0 "a" "string")
    ∧ check_types [("a", "string")] 0 [("b", .bool true)] =
        check_types [("a", "string")] 0 [] :=
  ⟨c4_type_checks.2.2.2.2 [("a", "string")] 0 "a" "string" (.int 3) [] rfl rfl,
   c4_type_checks.2.2.2.1 [("a", "string")] 0 "b" (.bool true) [] rfl⟩

/-- C9.  The empty array validates successfully against every schema,
required fields included: the per-element loop is vacuous. -/
theorem c9_empty_array_validates (schema : JsonSchema) :
    validate_against_schema (.arr []) schema = none := rfl

/-- C10.  The required-field presence check fails exactly when the key is
absent, null, or the empty string; in particular the boolean `false` and
the number `0` pass it, as the two concrete runs show. -/
theorem c10_false_and_zero_present :
    (∀ (fields : List (String × JsonVal)) (req : String),
      required_value_missing fields req = true ↔
        (lookup_value fields req = none ∨ lookup_value fields req = some .null ∨
          lookup_value fields req = some (.str "")))
    ∧ validate_against_schema (.arr [.obj [("flag", .bool false)]]) ⟨[], ["flag"]⟩ = none
    ∧ validate_against_schema (.arr [.obj [("count", .int 0)]]) ⟨[], ["count"]⟩ = none := by
  refine ⟨?_, rfl, rfl⟩
  intro fields req
  unfold required_value_missing
  cases h : lookup_value fields req with
  | none => simp
  | some v => cases v <;> simp

/-! ### Lemmas about the extraction orchestrator -/

theorem extract_loop_calls_le (decode : String → Except String JsonVal)
    (oracle : Nat → String) (schema : JsonSchema) (basePrompt : String) :
    ∀ (remaining attempt : Nat) (lastRaw : String) (lastErr : Option LastError),
      (extract_loop decode oracle schema basePrompt attempt remaining lastRaw lastErr).calls ≤
        remaining := by
  intro remaining
  induction remaining with
  | zero =>
    intro attempt lastRaw lastErr
    exact Nat.le_refl 0
  | succ r ih =>
    intro attempt lastRaw lastErr
    simp only [extract_loop]
    cases hd : decode (oracle attempt) with
    | error e =>
      dsimp only
      exact Nat.succ_le_succ (ih (attempt + 1) (oracle attempt) _)
    | ok v =>
      dsimp only
      cases hv : validate_against_schema v schema with
      | none =>
        dsimp only
        exact Nat.succ_le_succ (Nat.zero_le r)
      | some verr =>
        dsimp only
        exact Nat.succ_le_succ (ih (attempt + 1) (oracle attempt) _)

theorem extract_loop_all_fail (decode : String → Except String JsonVal)
    (oracle : Nat → String) (schema : JsonSchema) (basePrompt : String) :
    ∀ (r attempt : Nat) (lastRaw : String) (lastErr : Option LastError),
      (∀ k, attempt ≤ k → k ≤ attempt + r → attempt_fails decode oracle schema k) →
      (extract_loop decode oracle schema basePrompt attempt (r + 1) lastRaw lastErr).parsed =
          none
      ∧ (extract_loop decode oracle schema basePrompt attempt (r + 1) lastRaw lastErr).raw =
          oracle (attempt + r)
      ∧ (extract_loop decode oracle schema basePrompt attempt (r + 1) lastRaw lastErr).err =
          fail_err decode oracle schema (attempt + r) := by
  intro r
  induction r with
  | zero =>
    intro attempt lastRaw lastErr h
    have hfa : attempt_fails decode oracle schema attempt :=
      h attempt (Nat.le_refl attempt) (Nat.le_refl attempt)
    simp only [extract_loop]
    cases hd : decode (oracle attempt) with
    | error e =>
      dsimp only
      simp [extract_loop, fail_err, hd]
    | ok v =>
      dsimp only
      unfold attempt_fails at hfa
      rw [hd] at hfa
      cases hv : validate_against_schema v schema with
      | none => exact absurd hv hfa
      | some verr =>
        dsimp only
        simp [extract_loop, fail_err, hd, hv]
  | succ r ih =>
    intro attempt lastRaw lastErr h
    have hfa : attempt_fails decode oracle schema attempt :=
      h attempt (Nat.le_refl attempt) (by omega)
    have hrest : ∀ k, attempt + 1 ≤ k → k ≤ attempt + 1 + r →
        attempt_fails decode oracle schema k :=
      fun k h1 h2 => h k (by omega) (by omega)
    have harith : attempt + 1 + r = attempt + (r + 1) := by omega
    simp only [extract_loop]
    cases hd : decode (oracle attempt) with
    | error e =>
      dsimp only
      rcases ih (attempt + 1) (oracle attempt)
        (some (.jsonDecode (json_decode_msg e))) hrest with ⟨hp, hraw, herr⟩
      rw [harith] at hraw herr
      exact ⟨hp, hraw, herr⟩
    | ok v =>
      dsimp only
      unfold attempt_fails at hfa
      rw [hd] at hfa
      cases hv : validate_against_schema v schema with
      | none => exact absurd hv hfa
      | some verr =>
        dsimp only
        rcases ih (attempt + 1) (oracle attempt) (some (.validation verr)) hrest with
          ⟨hp, hraw, herr⟩
        rw [harith] at hraw herr
        exact ⟨hp, hraw, herr⟩

theorem extract_loop_prompts_get (decode : String → Except String JsonVal)
    (oracle : Nat → String) (schema : JsonSchema) (basePrompt : String) :
    ∀ (remaining attempt : Nat) (lastRaw : String) (lastErr : Option LastError)
      (k : Nat) (p : String),
      (extract_loop decode oracle schema basePrompt attempt remaining lastRaw
        lastErr).prompts[k]? = some p →
      p = (if attempt + k = 0 then basePrompt else basePrompt ++ retry_suffix) := by
  intro remaining
  induction remaining with
  | zero =>
    intro attempt lastRaw lastErr k p hp
    simp [extract_loop] at hp
  | succ r ih =>
    intro attempt lastRaw lastErr k p hp
    simp only [extract_loop] at hp
    cases hd : decode (oracle attempt) with
    | error e =>
      rw [hd] at hp
      dsimp only at hp
      cases k with
      | zero =>
        have hpe : (if attempt = 0 then basePrompt else basePrompt ++ retry_suffix) = p := by
          simpa using hp
        by_cases ha : attempt = 0
        · simpa [ha] using hpe.symm
        · simpa [ha] using hpe.symm
      | succ j =>
        have hj := ih (attempt + 1) (oracle attempt) _ j p (by simpa using hp)
        have hne : attempt + 1 + j ≠ 0 := by omega
        have hne2 : attempt + (j + 1) ≠ 0 := by omega
        rw [if_neg hne] at hj
        rw [if_neg hne2]
        exact hj
    | ok v =>
      rw [hd] at hp
      dsimp only at hp
      cases hv : validate_against_schema v schema with
      | none =>
        rw [hv] at hp
        dsimp only at hp
        cases k with
        | zero =>
          have hpe : (if attempt = 0 then basePrompt else basePrompt ++ retry_suffix) = p := by
            simpa using hp
          by_cases ha : attempt = 0
          · simpa [ha] using hpe.symm
          · simpa [ha] using hpe.symm
        | succ j =>
          simp at hp
      | some verr =>
        rw [hv] at hp
        dsimp only at hp
        cases k with
        | zero =>
          have hpe : (if attempt = 0 then basePrompt else basePrompt ++ retry_suffix) = p := by
            simpa using hp
          by_cases ha : attempt = 0
          · simpa [ha] using hpe.symm
          · simpa [ha] using hpe.symm
        | succ j =>
          have hj := ih (attempt + 1) (oracle attempt) _ j p (by simpa using hp)
          have hne : attempt + 1 + j ≠ 0 := by omega
          have hne2 : attempt + (j + 1) ≠ 0 := by omega
          rw [if_neg hne] at hj
          rw [if_neg hne2]
          exact hj

/-! ### Claim theorems: the extraction orchestrator -/

/-- C1.  The orchestrator invokes the model at most `max_retries + 1`
times, and when the first response decodes and validates it performs
exactly one invocation and returns that parsed value (with the first
response as raw output and no error). -/
theorem c1_orchestrator_bounds (schema : JsonSchema) (text : String)
    (fields_meta : List FieldDef) (max_retries : Nat)
    (decode : String → Except String JsonVal) (oracle : Nat → String) :
    (extract_structured_data schema text fields_meta max_retries decode oracle).calls ≤
        max_retries + 1
    ∧ (∀ v : JsonVal, decode (oracle 0) = .ok v → validate_against_schema v schema = none →
        extract_structured_data schema text fields_meta max_retries decode oracle =
          { parsed := some v, raw := oracle 0, err := none, calls := 1,
            prompts := [build_extraction_prompt schema text fields_meta] }) := by
  constructor
  · exact extract_loop_calls_le decode oracle schema _ (max_retries + 1) 0 "" none
  · intro v hd hv
    unfold extract_structured_data
    simp only [extract_loop]
    rw [hd]
    dsimp only
    rw [hv]
    dsimp only
    simp

/-- Witness for C1: a model whose first response parses to the empty
array against the empty schema yields exactly one call and that parsed
value. -/
theorem c1_witness :
    extract_structured_data ⟨[], []⟩ "t" [] 1 demo_decode_ok demo_oracle =
      { parsed := some (.arr []), raw := "[]", err := none, calls := 1,
        prompts := [build_extraction_prompt ⟨[], []⟩ "t" []] } :=
  (c1_orchestrator_bounds ⟨[], []⟩ "t" [] 1 demo_decode_ok demo_oracle).2
    (.arr []) rfl rfl

/-- C2.  When every attempt fails to decode or validate, the outcome has
no parsed data, carries the raw text of the final attempt, and its error
is the formatted decode message if the final attempt failed at decoding,
otherwise the final attempt's validation failure. -/
theorem c2_exhausted_outcome (schema : JsonSchema) (text : String)
    (fields_meta : List FieldDef) (max_retries : Nat)
    (decode : String → Except String JsonVal) (oracle : Nat → String)
    (h : ∀ k, k ≤ max_retries → attempt_fails decode oracle schema k) :
    (extract_structured_data schema text fields_meta max_retries decode oracle).parsed = none
    ∧ (extract_structured_data schema text fields_meta max_retries decode oracle).raw =
        oracle max_retries
    ∧ (∀ e, decode (oracle max_retries) = .error e →
        (extract_structured_data schema text fields_meta max_retries decode oracle).err =
          some (.jsonDecode (json_decode_msg e)))
    ∧ (∀ v, decode (oracle max_retries) = .ok v →
        (extract_structured_data schema text fields_meta max_retries decode oracle).err =
          (validate_against_schema v schema).map (fun er => .validation er)) := by
  have hall := extract_loop_all_fail decode oracle schema
    (build_extraction_prompt schema text fields_meta) max_retries 0 "" none
    (fun k _ hk2 => h k (by omega))
  rcases hall with ⟨hp, hraw, herr⟩
  rw [Nat.zero_add] at hraw herr
  unfold extract_structured_data
  refine ⟨hp, hraw, ?_, ?_⟩
  · intro e hd
    rw [herr]
    unfold fail_err
    rw [hd]
  · intro v hd
    rw [herr]
    unfold fail_err
    rw [hd]

/-- Witness for C2: two failing decode attempts leave no parsed data, the
final raw response, and the formatted decode error. -/
theorem c2_witness :
    (extract_structured_data ⟨[], []⟩ "t" [] 1 demo_decode_fail demo_oracle).parsed = none
    ∧ (extract_structured_data ⟨[], []⟩ "t" [] 1 demo_decode_fail demo_oracle).raw =
        demo_oracle 1
    ∧ (extract_structured_data ⟨[], []⟩ "t" [] 1 demo_decode_fail demo_oracle).err =
        some (.jsonDecode (json_decode_msg "boom")) := by
  have h := c2_exhausted_outcome ⟨[], []⟩ "t" [] 1 demo_decode_fail demo_oracle
    (fun k _ => by simp [attempt_fails, demo_decode_fail])
  exact ⟨h.1, h.2.1, h.2.2.1 "boom" rfl⟩

/-- C7.  The prompt of attempt 0 is the base prompt built from the
schema, text and field hints; every later attempt's prompt is that same
base prompt with the fixed reinforcement suffix appended; and the hints
block contains one line exactly for each field whose trimmed name and
trimmed description are both non-empty. -/
theorem c7_prompt_schedule :
    (∀ (schema : JsonSchema) (text : String) (fields_meta : List FieldDef)
      (max_retries : Nat) (decode : String → Except String JsonVal)
      (oracle : Nat → String) (k : Nat) (p : String),
      (extract_structured_data schema text fields_meta max_retries decode
        oracle).prompts[k]? = some p →
      p = (if k = 0 then build_extraction_prompt schema text fields_meta
        else build_extraction_prompt schema text fields_meta ++ retry_suffix))
    ∧ (∀ (fields_meta : List FieldDef) (line : String),
        line ∈ hints_lines fields_meta ↔
          ∃ f ∈ fields_meta, py_strip f.name ≠ "" ∧ py_strip f.description ≠ "" ∧
            line = "- " ++ py_strip f.name ++ " (" ++ f.type ++ "): " ++
              py_strip f.description) := by
  constructor
  · intro schema text fields_meta max_retries decode oracle k p hp
    have hk := extract_loop_prompts_get decode oracle schema
      (build_extraction_prompt schema text fields_meta) (max_retries + 1) 0 "" none k p hp
    rwa [Nat.zero_add] at hk
  · intro fields_meta line
    induction fields_meta with
    | nil => simp [hints_lines]
    | cons f rest ih =>
      simp only [hints_lines]
      by_cases h : py_strip f.name = "" ∨ py_strip f.description = ""
      · rw [if_pos h, ih]
        constructor
        · rintro ⟨g, hg, hprops⟩
          exact ⟨g, List.mem_cons_of_mem _ hg, hprops⟩
        · rintro ⟨g, hg, h1, h2, h3⟩
          rcases List.mem_cons.mp hg with he | hm
          · rcases h with hn | hd
            · exact absurd (he ▸ hn) h1
            · exact absurd (he ▸ hd) h2
          · exact ⟨g, hm, h1, h2, h3⟩
      · rw [if_neg h]
        push_neg at h
        simp only [List.mem_cons]
        constructor
        · rintro (rfl | hline)
          · exact ⟨f, Or.inl rfl, h.1, h.2, rfl⟩
          · rcases ih.mp hline with ⟨g, hg, hp1⟩
            exact ⟨g, Or.inr hg, hp1⟩
        · rintro ⟨g, (rfl | hg), h1, h2, h3⟩
          · exact Or.inl h3
          · exact Or.inr (ih.mpr ⟨g, hg, h1, h2, h3⟩)

/-- Witness for C7: on a run with two failing attempts, the second prompt
is the base prompt with the reinforcement suffix appended, and a field
with name and description produces its hint line. -/
theorem c7_witness :
    (extract_structured_data ⟨[], []⟩ "t" [] 1 demo_decode_fail demo_oracle).prompts[1]? =
      some (if (1 : Nat) = 0 then build_extraction_prompt ⟨[], []⟩ "t" []
        else build_extraction_prompt ⟨[], []⟩ "t" [] ++ retry_suffix) := by
  have h : (extract_structured_data ⟨[], []⟩ "t" [] 1 demo_decode_fail
      demo_oracle).prompts[1]? =
      some (build_extraction_prompt ⟨[], []⟩ "t" [] ++ retry_suffix) := rfl
  rw [h]
  exact (congrArg some (c7_prompt_schedule.1 ⟨[], []⟩ "t" [] 1 demo_decode_fail
    demo_oracle 1 (build_extraction_prompt ⟨[], []⟩ "t" [] ++ retry_suffix) h)).symm

/-- C8 counterexample: the claim lists the accepted suffixes as exactly
pdf, docx, txt, csv, xlsx, but the dispatcher also accepts `.xls`
(`filename.endswith((".xls", ".xlsx"))`): `report.xls` matches none of
the five claimed suffixes yet dispatch succeeds. -/
theorem c8_counterexample :
    extract_text_from_file demo_reader "report.xls" = .ok ""
    ∧ (py_endswith (py_lower "report.xls") ".pdf"
        || py_endswith (py_lower "report.xls") ".docx"
        || py_endswith (py_lower "report.xls") ".txt"
        || py_endswith (py_lower "report.xls") ".csv"
        || py_endswith (py_lower "report.xls") ".xlsx") = false :=
  ⟨rfl, rfl⟩

/-- C8 (amended): dispatch succeeds exactly for filenames whose
lowercased form ends in .pdf, .docx, .txt, .csv, .xls or .xlsx — that
is, `.xls` is accepted in addition to the five suffixes the claim lists —
and every other filename fails with the unsupported-format error. -/
theorem c8_dispatch (reader : ExtractedKind → String) (filename : String) :
    ((extract_text_from_file reader filename).isOk = true ↔
      (py_endswith (py_lower filename) ".pdf" = true
        ∨ py_endswith (py_lower filename) ".docx" = true
        ∨ py_endswith (py_lower filename) ".txt" = true
        ∨ py_endswith (py_lower filename) ".csv" = true
        ∨ py_endswith (py_lower filename) ".xls" = true
        ∨ py_endswith (py_lower filename) ".xlsx" = true))
    ∧ ((py_endswith (py_lower filename) ".pdf" = false
        ∧ py_endswith (py_lower filename) ".docx" = false
        ∧ py_endswith (py_lower filename) ".txt" = false
        ∧ py_endswith (py_lower filename) ".csv" = false
        ∧ py_endswith (py_lower filename) ".xls" = false
        ∧ py_endswith (py_lower filename) ".xlsx" = false) →
        extract_text_from_file reader filename = .error unsupported_format_msg) := by
  simp only [extract_text_from_file]
  split_ifs with h1 h2 h3 h4 h5
  · refine ⟨by simp [Except.isOk, Except.toBool, h1], ?_⟩
    intro hc
    simp [hc.1] at h1
  · refine ⟨by simp [Except.isOk, Except.toBool, h2], ?_⟩
    intro hc
    simp [hc.2.1] at h2
  · refine ⟨by simp [Except.isOk, Except.toBool, h3], ?_⟩
    intro hc
    simp [hc.2.2.1] at h3
  · refine ⟨by simp [Except.isOk, Except.toBool, h4], ?_⟩
    intro hc
    simp [hc.2.2.2.1] at h4
  · refine ⟨?_, ?_⟩
    · rw [Bool.or_eq_true] at h5
      simp only [Except.isOk, Except.toBool, true_iff]
      tauto
    · intro hc
      simp [hc.2.2.2.2.1, hc.2.2.2.2.2] at h5
  · simp only [Bool.or_eq_true, not_or, Bool.not_eq_true] at h5
    rw [Bool.not_eq_true] at h1 h2 h3 h4
    refine ⟨?_, fun _ => rfl⟩
    simp [Except.isOk, Except.toBool, h1, h2, h3, h4, h5.1, h5.2]

/-- Witness for C8 (amended): a `.zip` filename matches no accepted
suffix and fails with the unsupported-format error. -/
theorem c8_witness :
    extract_text_from_file demo_reader "a.zip" = .error unsupported_format_msg :=
  (c8_dispatch demo_reader "a.zip").2 ⟨rfl, rfl, rfl, rfl, rfl, rfl⟩

end DocsPre
